import Mathlib

/-!
Verification of the flagtags struct-to-flag mapping engine.

Part 1 models `src/textcase.go`: `toSnakeCase` applies the regex replacement
`(.)([A-Z][a-z]+)` -> `$1_$2` (matchFirstCap), then `([a-z0-9])([A-Z])` ->
`$1_$2` (matchAllCap), then lowercases.  Strings are modelled as lists of
characters; the regex character classes are ASCII ranges, exactly as in the
source patterns, and `.` is any character except newline (Go regexp default).
Case mapping is modelled on ASCII (the identifiers the package handles).
-/

/-- Class `[A-Z]` of the source regexes, by code point. -/
def isUp (c : Char) : Bool := decide (65 ≤ c.toNat ∧ c.toNat ≤ 90)

/-- Class `[a-z]` of the source regexes, by code point. -/
def isLo (c : Char) : Bool := decide (97 ≤ c.toNat ∧ c.toNat ≤ 122)

/-- Class `[a-z0-9]` of matchAllCap. -/
def isLoDig (c : Char) : Bool := isLo c || decide (48 ≤ c.toNat ∧ c.toNat ≤ 57)

/-- Class of `.` in a Go regexp without the `s` flag: any character except newline. -/
def isDot (c : Char) : Bool := decide (c.toNat ≠ 10)

/-- ASCII lowercase mapping, as strings.ToLower acts on ASCII letters. -/
def asciiToLower (c : Char) : Char := if isUp c then Char.ofNat (c.toNat + 32) else c

/-- ASCII uppercase mapping, as strings.ToUpper acts on ASCII letters. -/
def asciiToUpper (c : Char) : Char := if isLo c then Char.ofNat (c.toNat - 32) else c

/-- One left-to-right pass of `matchFirstCap.ReplaceAllString(str, "${1}_${2}")`.
In scan state (`false`) it looks for the leftmost match of `(.)([A-Z][a-z]+)`:
any non-newline character, a capital, then a nonempty greedy lowercase run.
On a match it emits the first three characters with the `_` inserted and
switches to run state (`true`), which copies the rest of the greedy lowercase
run and resumes the scan at the first character past it (matches do not
overlap, so that character can only start a new match, not continue one). -/
def goFirstCap : Bool → List Char → List Char
  | true, c :: rest =>
    if isLo c then c :: goFirstCap true rest
    else
      match rest with
      | d2 :: d3 :: r =>
        if isDot c && isUp d2 && isLo d3 then c :: '_' :: d2 :: d3 :: goFirstCap true r
        else c :: goFirstCap false (d2 :: d3 :: r)
      | _ => c :: rest
  | false, c1 :: c2 :: c3 :: rest =>
    if isDot c1 && isUp c2 && isLo c3 then c1 :: '_' :: c2 :: c3 :: goFirstCap true rest
    else c1 :: goFirstCap false (c2 :: c3 :: rest)
  | _, l => l

/-- One left-to-right pass of `matchAllCap.ReplaceAllString(snake, "${1}_${2}")`:
every non-overlapping occurrence of `([a-z0-9])([A-Z])` gets an `_` inserted. -/
def goAllCap : List Char → List Char
  | c1 :: c2 :: rest =>
    if isLoDig c1 && isUp c2 then c1 :: '_' :: c2 :: goAllCap rest
    else c1 :: goAllCap (c2 :: rest)
  | l => l

/-- toSnakeCase from src/textcase.go: the two replacement passes, then ToLower. -/
def toSnakeCase (s : String) : String :=
  ((goAllCap (goFirstCap false s.toList)).map asciiToLower).asString

/-- toKebabCase from src/textcase.go: toSnakeCase, then ReplaceAll "_" "-"
(a single-character pattern, hence a character map). -/
def toKebabCase (s : String) : String :=
  ((toSnakeCase s).toList.map (fun c => if c = '_' then '-' else c)).asString

/-- toScreamingSnakeCase from src/textcase.go: toSnakeCase then ToUpper. -/
def toScreamingSnakeCase (s : String) : String :=
  ((toSnakeCase s).toList.map asciiToUpper).asString

/-!
The specification's description of toSnakeCase, written from its words: insert
an underscore before every capital letter that is (a) preceded by a
lowercase letter or digit, or (b) followed by a lowercase run and preceded by
a character accepted by `bOk`; then lowercase.  The claim takes `bOk` to accept
any character; the amendment restricts it to non-newline characters.
-/

/-- Whether the claimed rule inserts an underscore before `c`, given the previous
character (none at the start of the string) and the next one. -/
def snakeInsCond (bOk : Char → Bool) : Option Char → Option Char → Char → Bool
  | none, _, _ => false
  | some p, next, c => isUp c && (isLoDig p || (bOk p && next.any isLo))

/-- Single pass inserting underscores by the claimed rule, tracking the previous
character. -/
def snakeSpecGo (bOk : Char → Bool) : Option Char → List Char → List Char
  | _, [] => []
  | prev, c :: rest =>
    if snakeInsCond bOk prev rest.head? c then '_' :: c :: snakeSpecGo bOk (some c) rest
    else c :: snakeSpecGo bOk (some c) rest

/-- The claim's description of toSnakeCase as stated: rule (b) accepts any
preceding character. -/
def snakeSpecClaim (s : String) : String :=
  ((snakeSpecGo (fun _ => true) none s.toList).map asciiToLower).asString

/-- The amended description: rule (b) requires the preceding character to be a
non-newline character, the class the source regex's `.` actually matches. -/
def snakeSpecAmended (s : String) : String :=
  ((snakeSpecGo isDot none s.toList).map asciiToLower).asString

theorem lo_isLoDig {c : Char} (h : isLo c = true) : isLoDig c = true := by
  simp [isLo] at h
  simp [isLoDig, isLo]
  omega

theorem lo_not_up {c : Char} (h : isLo c = true) : isUp c = false := by
  simp [isLo] at h
  simp [isUp]
  omega

theorem up_not_lo {c : Char} (h : isUp c = true) : isLo c = false := by
  simp [isUp] at h
  simp [isLo]
  omega

theorem up_not_lodig {c : Char} (h : isUp c = true) : isLoDig c = false := by
  simp [isUp] at h
  simp [isLoDig, isLo]
  omega

theorem up_isDot {c : Char} (h : isUp c = true) : isDot c = true := by
  simp [isUp] at h
  simp [isDot]
  omega

/-- Whether the matchFirstCap pattern matches with `a` as its first character
and the head of `l` continuing it. -/
def mCond (a : Char) : List Char → Bool
  | c1 :: c2 :: _ => isDot a && isUp c1 && isLo c2
  | _ => false

/-- Invariant carried by the equivalence induction: the character preceding the
current scan position was either consumed as the tail of a lowercase run (so it
is lowercase) or was a scan position at which the pattern did not match. -/
def InvP (p : Option Char) (l : List Char) : Prop :=
  match p with
  | none => True
  | some a => isLo a = true ∨ mCond a l = false
theorem goAllCap_cons2 (c1 c2 : Char) (rest : List Char) :
    goAllCap (c1 :: c2 :: rest) =
      if isLoDig c1 && isUp c2 then c1 :: '_' :: c2 :: goAllCap rest
      else c1 :: goAllCap (c2 :: rest) := rfl

theorem goAllCap_match {c1 c2 : Char} (h1 : isLoDig c1 = true) (h2 : isUp c2 = true)
    {rest : List Char} :
    goAllCap (c1 :: c2 :: rest) = c1 :: '_' :: c2 :: goAllCap rest := by
  rw [goAllCap_cons2, h1, h2]
  rfl

theorem goAllCap_nomatch {c1 c2 : Char} (h : (isLoDig c1 && isUp c2) = false)
    {rest : List Char} :
    goAllCap (c1 :: c2 :: rest) = c1 :: goAllCap (c2 :: rest) := by
  rw [goAllCap_cons2, h]
  rfl

theorem snakeSpecGo_cons (bOk : Char → Bool) (p : Option Char) (c : Char)
    (rest : List Char) :
    snakeSpecGo bOk p (c :: rest) =
      if snakeInsCond bOk p rest.head? c then '_' :: c :: snakeSpecGo bOk (some c) rest
      else c :: snakeSpecGo bOk (some c) rest := rfl

theorem snake_ins {bOk : Char → Bool} {p : Option Char} {c : Char} {rest : List Char}
    (h : snakeInsCond bOk p rest.head? c = true) :
    snakeSpecGo bOk p (c :: rest) = '_' :: c :: snakeSpecGo bOk (some c) rest := by
  rw [snakeSpecGo_cons, h]
  rfl

theorem snake_noins {bOk : Char → Bool} {p : Option Char} {c : Char} {rest : List Char}
    (h : snakeInsCond bOk p rest.head? c = false) :
    snakeSpecGo bOk p (c :: rest) = c :: snakeSpecGo bOk (some c) rest := by
  rw [snakeSpecGo_cons, h]
  rfl

theorem insCond_none (bOk : Char → Bool) (next : Option Char) (c : Char) :
    snakeInsCond bOk none next c = false := rfl

theorem insCond_some (bOk : Char → Bool) (a : Char) (next : Option Char) (c : Char) :
    snakeInsCond bOk (some a) next c = (isUp c && (isLoDig a || (bOk a && next.any isLo))) :=
  rfl

theorem optAny_some (b : Char) : Option.any isLo (some b) = isLo b := rfl

theorem optAny_none : Option.any isLo (none : Option Char) = false := rfl

theorem insCond_not_up (bOk : Char → Bool) (p : Option Char) (next : Option Char)
    {c : Char} (h : isUp c = false) : snakeInsCond bOk p next c = false := by
  cases p with
  | none => rfl
  | some a => rw [insCond_some, h]; rfl

theorem snakeSpecGo_congr2 {bOk : Char → Bool} {p q : Option Char} {c : Char}
    (rest : List Char)
    (h : snakeInsCond bOk p rest.head? c = snakeInsCond bOk q rest.head? c) :
    snakeSpecGo bOk p (c :: rest) = snakeSpecGo bOk q (c :: rest) := by
  rw [snakeSpecGo_cons, snakeSpecGo_cons, h]

theorem goFirstCap_scan (c1 c2 c3 : Char) (rest : List Char) :
    goFirstCap false (c1 :: c2 :: c3 :: rest) =
      if isDot c1 && isUp c2 && isLo c3 then
        c1 :: '_' :: c2 :: c3 :: goFirstCap true rest
      else c1 :: goFirstCap false (c2 :: c3 :: rest) := rfl

theorem goFirstCap_copy_eq {c : Char} (rest : List Char) (h : isLo c = false) :
    goFirstCap true (c :: rest) = goFirstCap false (c :: rest) := by
  cases rest with
  | nil => simp [goFirstCap, h]
  | cons d2 t =>
    cases t with
    | nil => simp [goFirstCap, h]
    | cons d3 r => simp [goFirstCap, h]

theorem ins_false_of_nomatch {a c1 c2 : Char} {l2 : List Char}
    (hp : InvP (some a) (c1 :: c2 :: l2))
    (hP : (isLoDig a && isUp c1) = false) :
    snakeInsCond isDot (some a) (some c2) c1 = false := by
  cases hU1 : isUp c1 with
  | false => exact insCond_not_up _ _ _ hU1
  | true =>
    have hDa : isLoDig a = false := by
      cases hDa : isLoDig a with
      | false => rfl
      | true => rw [hDa, hU1] at hP; exact absurd hP (by decide)
    have hp' : isLo a = true ∨ mCond a (c1 :: c2 :: l2) = false := hp
    have hbc : (isDot a && isLo c2) = false := by
      rcases hp' with hlo | hm
      · rw [lo_isLoDig hlo] at hDa
        exact absurd hDa (by decide)
      · have hm' : (isDot a && isUp c1 && isLo c2) = false := hm
        rw [hU1, Bool.and_true] at hm'
        exact hm'
    rw [insCond_some, optAny_some, hU1, hDa, Bool.true_and, Bool.false_or]
    exact hbc

theorem snakeMain : ∀ n : Nat, ∀ l : List Char, l.length ≤ n →
    (∀ p : Option Char, InvP p l →
       goAllCap (p.toList ++ goFirstCap false l) = p.toList ++ snakeSpecGo isDot p l) ∧
    (∀ a : Char, isLo a = true →
       goAllCap (a :: goFirstCap true l) = a :: snakeSpecGo isDot (some a) l) := by
  intro n
  induction n with
  | zero =>
    intro l hl
    have hnil : l = [] := List.eq_nil_of_length_eq_zero (Nat.le_zero.mp hl)
    subst hnil
    exact ⟨fun p _ => by cases p <;> rfl, fun a _ => rfl⟩
  | succ n ih =>
    intro l hl
    have hS : ∀ p : Option Char, InvP p l →
        goAllCap (p.toList ++ goFirstCap false l) = p.toList ++ snakeSpecGo isDot p l := by
      intro p hp
      cases l with
      | nil => cases p <;> rfl
      | cons c1 t1 =>
      cases t1 with
      | nil =>
        cases p with
        | none => rfl
        | some a =>
          show goAllCap (a :: c1 :: []) = a :: snakeSpecGo isDot (some a) [c1]
          have hR : snakeSpecGo isDot (some a) [c1] =
              if (isUp c1 && isLoDig a) then ['_', c1] else [c1] := by
            rw [snakeSpecGo_cons]
            simp only [List.head?_nil, insCond_some, optAny_none, Bool.and_false,
              Bool.or_false]
            rfl
          rw [hR, goAllCap_cons2, Bool.and_comm (isLoDig a) (isUp c1)]
          cases hq : (isUp c1 && isLoDig a) <;> simp [hq, goAllCap]
      | cons c2 t2 =>
      cases t2 with
      | nil =>
        cases p with
        | none =>
          show goAllCap (c1 :: c2 :: []) = snakeSpecGo isDot none [c1, c2]
          rw [snake_noins (insCond_none _ _ _)]
          have hR : snakeSpecGo isDot (some c1) [c2] =
              if (isUp c2 && isLoDig c1) then ['_', c2] else [c2] := by
            rw [snakeSpecGo_cons]
            simp only [List.head?_nil, insCond_some, optAny_none, Bool.and_false,
              Bool.or_false]
            rfl
          rw [hR, goAllCap_cons2, Bool.and_comm (isLoDig c1) (isUp c2)]
          cases hq : (isUp c2 && isLoDig c1) <;> simp [hq, goAllCap]
        | some a =>
          show goAllCap (a :: c1 :: c2 :: []) = a :: snakeSpecGo isDot (some a) [c1, c2]
          cases hq : (isLoDig a && isUp c1) with
          | true =>
            have hq' := hq
            rw [Bool.and_eq_true] at hq'
            obtain ⟨hDa, hU1⟩ := hq'
            rw [goAllCap_match hDa hU1]
            have hc1 : snakeInsCond isDot (some a) ([c2].head?) c1 = true := by
              simp only [List.head?_cons, insCond_some, optAny_some]
              rw [hU1, hDa]
              rfl
            rw [snake_ins hc1]
            have hc2 : snakeInsCond isDot (some c1) (([] : List Char).head?) c2 = false := by
              simp only [List.head?_nil, insCond_some, optAny_none, Bool.and_false,
                Bool.or_false]
              rw [up_not_lodig hU1, Bool.and_false]
            rw [snake_noins hc2]
            simp [goAllCap, snakeSpecGo]
          | false =>
            rw [goAllCap_nomatch hq]
            have hc1 : snakeInsCond isDot (some a) ([c2].head?) c1 = false := by
              simp only [List.head?_cons]
              exact ins_false_of_nomatch hp hq
            rw [snake_noins hc1]
            congr 1
            have hR : snakeSpecGo isDot (some c1) [c2] =
                if (isUp c2 && isLoDig c1) then ['_', c2] else [c2] := by
              rw [snakeSpecGo_cons]
              simp only [List.head?_nil, insCond_some, optAny_none, Bool.and_false,
                Bool.or_false]
              rfl
            rw [hR, goAllCap_cons2, Bool.and_comm (isLoDig c1) (isUp c2)]
            cases hq2 : (isUp c2 && isLoDig c1) <;> simp [hq2, goAllCap]
      | cons c3 rest =>
        have hrest : rest.length ≤ n := by
          simp only [List.length_cons] at hl
          omega
        have htail : (c2 :: c3 :: rest).length ≤ n := by
          simp only [List.length_cons] at hl ⊢
          omega
        cases hM : (isDot c1 && isUp c2 && isLo c3) with
        | true =>
          have hM' := hM
          rw [Bool.and_eq_true, Bool.and_eq_true] at hM'
          obtain ⟨⟨hd1, hU2⟩, hL3⟩ := hM'
          have hgf : goFirstCap false (c1 :: c2 :: c3 :: rest) =
              c1 :: '_' :: c2 :: c3 :: goFirstCap true rest := by
            rw [goFirstCap_scan, hM]
            rfl
          have h1 : (isLoDig c1 && isUp '_') = false := by
            rw [(by decide : isUp '_' = false), Bool.and_false]
          have h2 : (isLoDig '_' && isUp c2) = false := by
            rw [(by decide : isLoDig '_' = false), Bool.false_and]
          have h3 : (isLoDig c2 && isUp c3) = false := by
            rw [up_not_lodig hU2, Bool.false_and]
          have hC3 := (ih rest hrest).2 c3 hL3
          have hchain : goAllCap (c1 :: '_' :: c2 :: c3 :: goFirstCap true rest) =
              c1 :: '_' :: c2 :: c3 :: snakeSpecGo isDot (some c3) rest := by
            rw [goAllCap_nomatch h1, goAllCap_nomatch h2, goAllCap_nomatch h3, hC3]
          have hi2 : snakeInsCond isDot (some c1) ((c3 :: rest).head?) c2 = true := by
            simp only [List.head?_cons, insCond_some, optAny_some]
            rw [hU2, hd1, hL3]
            simp only [Bool.true_and, Bool.or_true]
          have hi3 : snakeInsCond isDot (some c2) (rest.head?) c3 = false :=
            insCond_not_up _ _ _ (lo_not_up hL3)
          have hsnake : snakeSpecGo isDot (some c1) (c2 :: c3 :: rest) =
              '_' :: c2 :: c3 :: snakeSpecGo isDot (some c3) rest := by
            rw [snake_ins hi2, snake_noins hi3]
          cases p with
          | none =>
            show goAllCap (goFirstCap false (c1 :: c2 :: c3 :: rest)) =
              snakeSpecGo isDot none (c1 :: c2 :: c3 :: rest)
            rw [hgf, hchain, snake_noins (insCond_none _ _ _), hsnake]
          | some a =>
            show goAllCap (a :: goFirstCap false (c1 :: c2 :: c3 :: rest)) =
              a :: snakeSpecGo isDot (some a) (c1 :: c2 :: c3 :: rest)
            rw [hgf]
            cases hq : (isLoDig a && isUp c1) with
            | true =>
              have hq' := hq
              rw [Bool.and_eq_true] at hq'
              obtain ⟨hDa, hU1⟩ := hq'
              rw [goAllCap_match hDa hU1, goAllCap_nomatch h2, goAllCap_nomatch h3, hC3]
              have hi1 : snakeInsCond isDot (some a) ((c2 :: c3 :: rest).head?) c1 = true := by
                simp only [List.head?_cons, insCond_some, optAny_some]
                rw [hU1, hDa]
                simp only [Bool.true_and, Bool.true_or]
              rw [snake_ins hi1, hsnake]
            | false =>
              rw [goAllCap_nomatch hq, goAllCap_nomatch h1, goAllCap_nomatch h2,
                goAllCap_nomatch h3, hC3]
              have hi1 : snakeInsCond isDot (some a) ((c2 :: c3 :: rest).head?) c1 = false := by
                simp only [List.head?_cons, insCond_some, optAny_some]
                rw [up_not_lo hU2, Bool.and_false, Bool.or_false, Bool.and_comm]
                exact hq
              rw [snake_noins hi1, hsnake]
        | false =>
          have hgf : goFirstCap false (c1 :: c2 :: c3 :: rest) =
              c1 :: goFirstCap false (c2 :: c3 :: rest) := by
            rw [goFirstCap_scan, hM]
            rfl
          have hInv1 : InvP (some c1) (c2 :: c3 :: rest) := Or.inr hM
          have hStail := (ih (c2 :: c3 :: rest) htail).1
          cases p with
          | none =>
            show goAllCap (goFirstCap false (c1 :: c2 :: c3 :: rest)) =
              snakeSpecGo isDot none (c1 :: c2 :: c3 :: rest)
            rw [hgf]
            have hT : goAllCap (c1 :: goFirstCap false (c2 :: c3 :: rest)) =
                c1 :: snakeSpecGo isDot (some c1) (c2 :: c3 :: rest) :=
              hStail (some c1) hInv1
            rw [hT, snake_noins (insCond_none _ _ _)]
          | some a =>
            show goAllCap (a :: goFirstCap false (c1 :: c2 :: c3 :: rest)) =
              a :: snakeSpecGo isDot (some a) (c1 :: c2 :: c3 :: rest)
            rw [hgf]
            cases hq : (isLoDig a && isUp c1) with
            | true =>
              have hq' := hq
              rw [Bool.and_eq_true] at hq'
              obtain ⟨hDa, hU1⟩ := hq'
              rw [goAllCap_match hDa hU1]
              have hF : goAllCap (goFirstCap false (c2 :: c3 :: rest)) =
                  snakeSpecGo isDot none (c2 :: c3 :: rest) :=
                hStail none True.intro
              rw [hF]
              have hbc : (isUp c2 && isLo c3) = false := by
                have hM2 : (isDot c1 && isUp c2 && isLo c3) = false := hM
                rw [up_isDot hU1, Bool.true_and] at hM2
                exact hM2
              have hcongr : snakeSpecGo isDot none (c2 :: c3 :: rest) =
                  snakeSpecGo isDot (some c1) (c2 :: c3 :: rest) := by
                apply snakeSpecGo_congr2
                rw [insCond_none]
                simp only [List.head?_cons, insCond_some, optAny_some]
                rw [up_not_lodig hU1, up_isDot hU1, Bool.false_or, Bool.true_and, hbc]
              rw [hcongr]
              have hi1 : snakeInsCond isDot (some a) ((c2 :: c3 :: rest).head?) c1 = true := by
                simp only [List.head?_cons, insCond_some, optAny_some]
                rw [hU1, hDa]
                simp only [Bool.true_and, Bool.true_or]
              rw [snake_ins hi1]
            | false =>
              rw [goAllCap_nomatch hq]
              have hT : goAllCap (c1 :: goFirstCap false (c2 :: c3 :: rest)) =
                  c1 :: snakeSpecGo isDot (some c1) (c2 :: c3 :: rest) :=
                hStail (some c1) hInv1
              rw [hT]
              have hi1 : snakeInsCond isDot (some a) ((c2 :: c3 :: rest).head?) c1 = false := by
                simp only [List.head?_cons]
                exact ins_false_of_nomatch hp hq
              rw [snake_noins hi1]
    refine ⟨hS, ?_⟩
    intro a ha
    cases l with
    | nil => rfl
    | cons c rest =>
      have hrest : rest.length ≤ n := by
        simp only [List.length_cons] at hl
        omega
      cases hLc : isLo c with
      | true =>
        have hgf : goFirstCap true (c :: rest) = c :: goFirstCap true rest := by
          cases rest with
          | nil => simp [goFirstCap, hLc]
          | cons d2 t =>
            cases t with
            | nil => simp [goFirstCap, hLc]
            | cons d3 r => simp [goFirstCap, hLc]
        rw [hgf]
        have hnp : (isLoDig a && isUp c) = false := by
          rw [lo_not_up hLc, Bool.and_false]
        rw [goAllCap_nomatch hnp, (ih rest hrest).2 c hLc,
          snake_noins (insCond_not_up _ _ _ (lo_not_up hLc))]
      | false =>
        rw [goFirstCap_copy_eq rest hLc]
        exact hS (some a) (Or.inl ha)
example : toSnakeCase ("HTTPRequest") = "http_request" := by decide
example : toSnakeCase ("ID0Value") = "id0_value" := by decide
example : toSnakeCase ("BatteryLifeValue") = "battery_life_value" := by decide
example : toSnakeCase ("a\nBc") = "a\nbc" := by decide
example : snakeSpecClaim ("a\nBc") = "a\n_bc" := by decide
example : snakeSpecAmended ("a\nBc") = "a\nbc" := by decide
example : toKebabCase ("HostURL") = "host-url" := by decide
example : toScreamingSnakeCase ("HostURL") = "HOST_URL" := by decide

theorem toSnakeCase_eq_amended (s : String) : toSnakeCase s = snakeSpecAmended s := by
  unfold toSnakeCase snakeSpecAmended
  have h : goAllCap (goFirstCap false s.toList) = snakeSpecGo isDot none s.toList :=
    (snakeMain s.toList.length s.toList le_rfl).1 none True.intro
  rw [h]

/-!
Part 2 models the flag resolver of src/unnamed/part_002: `ParseFlagsWithOpts`
and `flagsFromField`.  A Go value reached by reflection is modelled by `GoVal`;
a struct field's metadata (`reflect.StructField`) by `FieldMeta`.  A value of
a named (defined) type aliasing a primitive, such as `type MyInt int`, is
`vnamedPrim`: its kind is one of the four supported ones, so it enters the
corresponding switch arm, but its dynamic address type is not the built-in
`*int`/`*string`/`*float64`/`*bool`, so the arm's `iface.(*T)` type assertion
fails and the sentinel-less "failed to parse address of field" error is
returned.  Destination pointers (`cli.Flag.Destination`) are memory references into the
caller's struct and carry no claim-relevant data; they are dropped from the
binding model.  float64 values and strconv.ParseFloat are modelled on the
finite-decimal fragment (sign, digits, dot, exponent) as exact rationals: no
rounding, no inf/nan/hex/underscore forms, none of which any claim exercises.
-/

/-- The four struct tags the package reads; each field holds the
reflect.StructTag.Lookup result for that key. -/
structure Tags where
  name : Option String
  env : Option String
  value : Option String
  usage : Option String
deriving DecidableEq

/-- The tags of an untagged field. -/
def noTags : Tags := ⟨none, none, none, none⟩

/-- reflect.StructField as the resolver uses it: the field's name, its tags,
whether it is anonymous (embedded), and whether it is exported (a field of an
addressable struct is settable iff it is exported, so this is `v.CanSet()`). -/
structure FieldMeta where
  name : String
  tags : Tags
  anonymous : Bool
  exported : Bool
deriving DecidableEq

/-- A Go value as the resolver inspects it through reflect.  `vptr` carries
whether the pointer's element type is a struct (`v.Type().Elem().Kind()`) and
the pointee, `none` for a nil pointer.  `vother` is a value of any kind outside
the supported ones, carrying `v.Kind().String()`.  `vnamedPrim` is a value of
a named type whose underlying type is one of the four supported primitives,
carrying the kind's name: the four built-in-typed constructors stand for
values whose dynamic type is the built-in one.  (A named struct type needs no
such marker: the struct arm uses reflection, not a type assertion.)  A struct
pairs each field's metadata with the field's value, in declaration order. -/
inductive GoVal where
  | vstr (s : String)
  | vint (n : Int)
  | vfloat (q : Rat)
  | vbool (b : Bool)
  | vstruct (fields : List (FieldMeta × GoVal))
  | vptr (elemStruct : Bool) (pointee : Option GoVal)
  | vother (kind : String)
  | vnamedPrim (kind : String)

/-- The errors of src/unnamed/part_002, one constructor per sentinel
(errors.Is target) the source wraps, carrying the data formatted into the
message.  `parseFail` is the wrapped *strconv.NumError, whose Func field names
the failing parser: the seventh distinguishable kind.  `badAddr` is the
sentinel-less "failed to parse address of field '%v'" error returned when a
primitive arm's `iface.(*T)` type assertion fails, which happens exactly for
`vnamedPrim` values; it wraps no sentinel, so no `errors.Is` target matches
it. -/
inductive GoErr where
  | nilValue
  | mustBePtr
  | invalidStruct
  | privateField (field : String)
  | nilStructPtr (field : String)
  | notSupported (kind : String)
  | parseFail (func : String) (raw : String)
  | badAddr (field : String)
deriving DecidableEq

/-- flagtags.Options. -/
structure Options where
  EnvPrefix : String
  FlagPrefix : String
deriving DecidableEq

/-- A produced cli.Flag (stringFlag, boolFlag, intFlag, float64Flag in the
source): flag name, default value, env var name, usage.  The Destination
pointer is not modelled.  (Named CliFlag because Lean's library already has a
Flag.) -/
inductive CliFlag where
  | stringFlag (name : String) (value : String) (env : String) (usage : String)
  | boolFlag (name : String) (value : Bool) (env : String) (usage : String)
  | intFlag (name : String) (value : Int) (env : String) (usage : String)
  | floatFlag (name : String) (value : Rat) (env : String) (usage : String)
deriving DecidableEq

/-- An ASCII digit. -/
def isDigitCh (c : Char) : Bool := decide (48 ≤ c.toNat ∧ c.toNat ≤ 57)

/-- The natural number named by a list of ASCII digits. -/
def digitsVal (l : List Char) : Nat := l.foldl (fun acc c => acc * 10 + (c.toNat - 48)) 0

/-- strconv.ParseBool: exactly these literals are accepted. -/
def goParseBool (s : String) : Option Bool :=
  if s = "1" ∨ s = "t" ∨ s = "T" ∨ s = "TRUE" ∨ s = "true" ∨ s = "True" then some true
  else if s = "0" ∨ s = "f" ∨ s = "F" ∨ s = "FALSE" ∨ s = "false" ∨ s = "False" then
    some false
  else none

/-- strconv.Atoi (ParseInt, base 10, 64-bit int): an optional sign, then one or
more ASCII digits, and the signed value must lie in the int64 range. -/
def goAtoi (s : String) : Option Int :=
  let p : Int × List Char :=
    match s.toList with
    | '+' :: r => (1, r)
    | '-' :: r => (-1, r)
    | r => (1, r)
  if p.2.isEmpty || !(p.2.all isDigitCh) then none
  else
    let n : Int := p.1 * (digitsVal p.2 : Int)
    if -(2 ^ 63) ≤ n ∧ n ≤ 2 ^ 63 - 1 then some n else none

/-- strconv.ParseFloat(|, 64) on its finite-decimal fragment
`[+-]? digits [. digits] [(e|E) [+-]? digits]` with at least one mantissa
digit, as an exact rational. -/
def goParseFloat (s : String) : Option Rat :=
  let p : Rat × List Char :=
    match s.toList with
    | '+' :: r => (1, r)
    | '-' :: r => (-1, r)
    | r => (1, r)
  let d1 := p.2.takeWhile isDigitCh
  let r1 := p.2.dropWhile isDigitCh
  let q : List Char × List Char :=
    match r1 with
    | '.' :: t => (t.takeWhile isDigitCh, t.dropWhile isDigitCh)
    | t => ([], t)
  if d1.isEmpty && q.1.isEmpty then none
  else
    let mant : Rat := p.1 * ((digitsVal d1 : Rat) + (digitsVal q.1 : Rat) / (10 : Rat) ^ q.1.length)
    match q.2 with
    | [] => some mant
    | e :: t =>
      if e = 'e' ∨ e = 'E' then
        let x : Int × List Char :=
          match t with
          | '+' :: u => (1, u)
          | '-' :: u => (-1, u)
          | u => (1, u)
        if x.2.isEmpty || !(x.2.all isDigitCh) then none
        else some (mant * (10 : Rat) ^ (x.1 * (digitsVal x.2 : Int)))
      else none

mutual

/-- Size measure on values for the resolver's termination. -/
def GoVal.sz : GoVal → Nat
  | .vstruct fs => 1 + fieldsSz fs
  | .vptr _ (some p) => 1 + p.sz
  | _ => 1

/-- Size measure on field lists. -/
def fieldsSz : List (FieldMeta × GoVal) → Nat
  | [] => 1
  | (_, v) :: fs => 3 + v.sz + fieldsSz fs

end

/-- Measure for the `Option GoVal` argument of ParseFlagsWithOpts. -/
def optSz : Option GoVal → Nat
  | none => 0
  | some v => v.sz

/-- The ([]cli.Flag, error) return pair: exactly one side is non-nil in the
source, `none` standing for Go nil. -/
abbrev FlagsRet := Option (List CliFlag) × Option GoErr

/-- The flag-name resolution of flagsFromField (lines 110-118): the name tag,
else the kebab-cased field name; the FlagPrefix is prepended when nonempty. -/
def resolveFlagName (m : FieldMeta) (opts : Options) : String :=
  let n0 :=
    match m.tags.name with
    | some n => n
    | none => toKebabCase m.name
  if opts.FlagPrefix ≠ "" then opts.FlagPrefix ++ n0 else n0

/-- The env-name resolution of flagsFromField (lines 120-134): the env tag,
else the SCREAMING_SNAKE_CASE of the name tag if present, else of the field
name; the EnvPrefix is prepended when nonempty. -/
def resolveEnvName (m : FieldMeta) (opts : Options) : String :=
  let e0 :=
    match m.tags.env with
    | some e => e
    | none =>
      toScreamingSnakeCase
        (match m.tags.name with
         | some n => n
         | none => m.name)
  if opts.EnvPrefix ≠ "" then opts.EnvPrefix ++ e0 else e0

mutual

/-- ParseFlagsWithOpts from src/unnamed/part_002 (lines 69-103).  The outer
`Except String` layer carries a Go panic (reflect.Value.Addr on the zero Value,
reached for a nil pointer field of non-struct element type); `.ok` is a normal
return.  A nil interface argument is `none`.  `v.Elem()` of a nil pointer is
the invalid zero Value, whose kind is not Struct, so a nil pointer argument
lands in the InvalidStruct branch exactly as in Go. -/
def ParseFlagsWithOpts (s : Option GoVal) (opts : Options) : Except String FlagsRet :=
  match s with
  | none => .ok (none, some .nilValue)
  | some v =>
    match v with
    | .vptr _ pointee =>
      match pointee with
      | some (.vstruct fs) =>
        match parseFields fs opts with
        | .error p => .error p
        | .ok (flags, none) => .ok (some flags, none)
        | .ok (_, some e) => .ok (none, some e)
      | _ => .ok (none, some .invalidStruct)
    | _ => .ok (none, some .mustBePtr)
termination_by optSz s
decreasing_by
  all_goals simp only [optSz, GoVal.sz, fieldsSz]
  all_goals omega

/-- The field loop of ParseFlagsWithOpts (lines 89-97): every field's flags are
appended (a failing field contributes none) and the first error is kept. -/
def parseFields (fs : List (FieldMeta × GoVal)) (opts : Options) :
    Except String (List CliFlag × Option GoErr) :=
  match fs with
  | [] => .ok ([], none)
  | (m, v) :: rest =>
    match flagsFromField m v opts with
    | .error p => .error p
    | .ok (newFlags, fieldErr) =>
      match parseFields rest opts with
      | .error p => .error p
      | .ok (restFlags, restErr) =>
        .ok ((newFlags.getD []) ++ restFlags,
          match fieldErr with
          | some e => some e
          | none => restErr)
termination_by fieldsSz fs
decreasing_by
  all_goals simp only [optSz, GoVal.sz, fieldsSz]
  all_goals omega

/-- flagsFromField from src/unnamed/part_002 (lines 105-218): resolve the flag
and env names, check accessibility, reject a nil pointer to a struct, then
dereference any pointer and dispatch on the kind of the value.  The arms pair
each kind with its form behind one level of pointer, mirroring the source's
`v = v.Elem()` before the switch. -/
def flagsFromField (m : FieldMeta) (v : GoVal) (opts : Options) : Except String FlagsRet :=
  let name := resolveFlagName m opts
  let env := resolveEnvName m opts
  if m.exported = false then .ok (none, some (.privateField m.name))
  else
    let strValue := m.tags.value.getD ""
    let usage := m.tags.usage.getD ""
    match v with
    | .vptr true none => .ok (none, some (.nilStructPtr m.name))
    | .vptr false none => .error "reflect: call of reflect.Value.Addr on zero Value"
    | .vptr _ (some (.vstruct fs)) | .vstruct fs =>
      let prefixName :=
        match m.tags.name with
        | some n => n
        | none => m.name
      let optsCopy :=
        if m.anonymous = false then
          { EnvPrefix := opts.EnvPrefix ++ toScreamingSnakeCase prefixName ++ "_",
            FlagPrefix := opts.FlagPrefix ++ toKebabCase prefixName ++ "-" : Options }
        else opts
      ParseFlagsWithOpts (some (.vptr true (some (.vstruct fs)))) optsCopy
    | .vptr _ (some (.vstr _)) | .vstr _ =>
      .ok (some [.stringFlag name strValue env usage], none)
    | .vptr _ (some (.vint _)) | .vint _ =>
      if strValue = "" then .ok (some [.intFlag name 0 env usage], none)
      else
        match goAtoi strValue with
        | some i => .ok (some [.intFlag name i env usage], none)
        | none => .ok (none, some (.parseFail "Atoi" strValue))
    | .vptr _ (some (.vfloat _)) | .vfloat _ =>
      if strValue = "" then .ok (some [.floatFlag name 0 env usage], none)
      else
        match goParseFloat strValue with
        | some f => .ok (some [.floatFlag name f env usage], none)
        | none => .ok (none, some (.parseFail "ParseFloat" strValue))
    | .vptr _ (some (.vbool _)) | .vbool _ =>
      if strValue.length = 0 then .ok (some [.boolFlag name false env usage], none)
      else
        match goParseBool strValue with
        | some b => .ok (some [.boolFlag name b env usage], none)
        | none => .ok (none, some (.parseFail "ParseBool" strValue))
    | .vptr _ (some (.vnamedPrim _)) | .vnamedPrim _ =>
      -- a named primitive type enters its kind's switch arm, where the
      -- iface.(*string / *int / *float64 / *bool) assertion fails (lines
      -- 171-173, 177-179, 190-192, 203-205); all four arms return the same
      -- sentinel-less error, before any value-tag handling
      .ok (none, some (.badAddr m.name))
    | .vptr _ (some (.vptr _ _)) => .ok (none, some (.notSupported "ptr"))
    | .vptr _ (some (.vother k)) | .vother k => .ok (none, some (.notSupported k))
termination_by GoVal.sz v + 2
decreasing_by
  all_goals simp only [optSz, GoVal.sz, fieldsSz]
  all_goals omega

end

/-- The flag name carried by a produced flag. -/
def CliFlag.flagName : CliFlag → String
  | .stringFlag n _ _ _ => n
  | .boolFlag n _ _ _ => n
  | .intFlag n _ _ _ => n
  | .floatFlag n _ _ _ => n

/-- The env var name carried by a produced flag. -/
def CliFlag.envName : CliFlag → String
  | .stringFlag _ _ e _ => e
  | .boolFlag _ _ e _ => e
  | .intFlag _ _ e _ => e
  | .floatFlag _ _ e _ => e

/-- The usage text carried by a produced flag. -/
def CliFlag.usageOf : CliFlag → String
  | .stringFlag _ _ _ u => u
  | .boolFlag _ _ _ u => u
  | .intFlag _ _ _ u => u
  | .floatFlag _ _ _ u => u

/-- A value of one of the four supported primitive kinds: a leaf field. -/
def isPrim : GoVal → Bool
  | .vstr _ => true
  | .vint _ => true
  | .vfloat _ => true
  | .vbool _ => true
  | _ => false

theorem string_empty_append (s : String) : "" ++ s = s := by
  cases s with
  | mk data => show String.mk ([] ++ data) = String.mk data; rw [List.nil_append]

/-- C4 counterexample: the claim's rule (b) accepts any preceding character,
but the source regex's `.` does not match a newline, so on "a\nBc" toSnakeCase
leaves "a\nbc" while the claimed rule inserts an underscore before the B. -/
theorem C4_snake_cex :
    toSnakeCase "a\nBc" ≠ snakeSpecClaim "a\nBc" ∧
    toSnakeCase "a\nBc" = "a\nbc" ∧ snakeSpecClaim "a\nBc" = "a\n_bc" :=
  ⟨by decide, by decide, by decide⟩

/-- C4 (amended): toSnakeCase inserts an underscore before every capital letter
that is preceded by a lowercase letter or digit, or that is followed by a
lowercase run and preceded by any character other than a newline, then
lowercases the whole string; in particular toSnakeCase("HTTPRequest") =
"http_request", toSnakeCase("ID0Value") = "id0_value",
toSnakeCase("BatteryLifeValue") = "battery_life_value",
toSnakeCase("already_snake") = "already_snake", and toSnakeCase("") = "". -/
theorem C4_snake_amended :
    (∀ s : String, toSnakeCase s = snakeSpecAmended s) ∧
    toSnakeCase "HTTPRequest" = "http_request" ∧
    toSnakeCase "ID0Value" = "id0_value" ∧
    toSnakeCase "BatteryLifeValue" = "battery_life_value" ∧
    toSnakeCase "already_snake" = "already_snake" ∧
    toSnakeCase "" = "" :=
  ⟨toSnakeCase_eq_amended, by decide, by decide, by decide, by decide, by decide⟩

/-- C6: an exported field holding a nil pointer to a struct fails with the
NilNestedRecordError (ErrNilStructPtr) naming that field; it is never
silently skipped. -/
theorem C6_nil_nested (m : FieldMeta) (opts : Options) (hexp : m.exported = true) :
    flagsFromField m (.vptr true none) opts = .ok (none, some (.nilStructPtr m.name)) := by
  simp [flagsFromField, hexp]

/-- C6 witness: a concrete nil *Nested field named "DB". -/
theorem C6_nil_nested_witness :
    flagsFromField ⟨"DB", noTags, false, true⟩ (.vptr true none) ⟨"", ""⟩ =
      .ok (none, some (.nilStructPtr "DB")) :=
  C6_nil_nested ⟨"DB", noTags, false, true⟩ ⟨"", ""⟩ rfl

theorem parseFields_ok_all {fs : List (FieldMeta × GoVal)} {opts : Options}
    {flags : List CliFlag} (h : parseFields fs opts = .ok (flags, none)) :
    ∀ p ∈ fs, ∃ nf, flagsFromField p.1 p.2 opts = .ok (nf, none) := by
  induction fs generalizing flags with
  | nil =>
    intro p hp
    simp at hp
  | cons fv rest ih =>
    obtain ⟨m, v⟩ := fv
    intro p hp
    simp only [parseFields] at h
    cases hf : flagsFromField m v opts with
    | error pmsg => rw [hf] at h; simp at h
    | ok pr =>
      obtain ⟨nf, fe⟩ := pr
      rw [hf] at h
      cases hr : parseFields rest opts with
      | error pmsg => rw [hr] at h; simp at h
      | ok pr2 =>
        obtain ⟨rf, re⟩ := pr2
        rw [hr] at h
        simp only [Except.ok.injEq, Prod.mk.injEq] at h
        obtain ⟨h1, h2⟩ := h
        cases fe with
        | some e => simp at h2
        | none =>
          rcases List.mem_cons.mp hp with rfl | hmem
          · exact ⟨nf, hf⟩
          · have h2' : re = none := h2
            subst h2'
            exact ih hr p hmem

theorem flagsFromField_private (m : FieldMeta) (v : GoVal) (opts : Options)
    (h : m.exported = false) :
    flagsFromField m v opts = .ok (none, some (.privateField m.name)) := by
  simp [flagsFromField, h]

/-- C7: a private (non-exported) field always yields PrivateFieldError naming
that field, whatever its type and tags (the accessibility check precedes type
dispatch and value parsing, so no UnsupportedTypeError or ValueParseError can
arise), and a successful resolve implies every field was exported, so no
bindings are ever returned for a record containing a private field. -/
theorem C7_private_field :
    (∀ (m : FieldMeta) (v : GoVal) (opts : Options), m.exported = false →
      flagsFromField m v opts = .ok (none, some (.privateField m.name))) ∧
    (∀ (es : Bool) (fs : List (FieldMeta × GoVal)) (opts : Options)
      (flags : List CliFlag),
      ParseFlagsWithOpts (some (.vptr es (some (.vstruct fs)))) opts =
        .ok (some flags, none) →
      ∀ p ∈ fs, p.1.exported = true) := by
  constructor
  · exact flagsFromField_private
  · intro es fs opts flags h p hp
    simp only [ParseFlagsWithOpts] at h
    cases hpf : parseFields fs opts with
    | error pmsg => rw [hpf] at h; simp at h
    | ok pr =>
      obtain ⟨fl2, err2⟩ := pr
      rw [hpf] at h
      cases err2 with
      | some e => simp at h
      | none =>
        obtain ⟨nf, hok⟩ := parseFields_ok_all hpf p hp
        cases hexp : p.1.exported with
        | true => rfl
        | false =>
          rw [flagsFromField_private p.1 p.2 opts hexp] at hok
          simp at hok

/-- C7 witness: a concrete private int field with tags still yields
PrivateFieldError, and a one-field struct with it resolves to no bindings. -/
theorem C7_private_field_witness :
    flagsFromField ⟨"port", ⟨some "p", some "P", some "x", some "u"⟩, false, false⟩
        (.vint 0) ⟨"", ""⟩ =
      .ok (none, some (.privateField "port")) :=
  C7_private_field.1 ⟨"port", ⟨some "p", some "P", some "x", some "u"⟩, false, false⟩
    (.vint 0) ⟨"", ""⟩ rfl

/-- C8: top-level validation before any field traversal: a nil interface
yields NilValueError, a non-pointer yields MustBePointerError, and a pointer
whose referent is not a struct (a nil pointer included, whose Elem() is the
invalid zero Value) yields InvalidStructError; no bindings are produced. -/
theorem C8_top_validation :
    (∀ opts : Options, ParseFlagsWithOpts none opts = .ok (none, some .nilValue)) ∧
    (∀ (v : GoVal) (opts : Options), (∀ es p, v ≠ .vptr es p) →
      ParseFlagsWithOpts (some v) opts = .ok (none, some .mustBePtr)) ∧
    (∀ (es : Bool) (pointee : Option GoVal) (opts : Options),
      (∀ fs, pointee ≠ some (.vstruct fs)) →
      ParseFlagsWithOpts (some (.vptr es pointee)) opts =
        .ok (none, some .invalidStruct)) := by
  refine ⟨fun opts => by simp [ParseFlagsWithOpts], ?_, ?_⟩
  · intro v opts h
    cases v with
    | vptr es p => exact absurd rfl (h es p)
    | vstr s => simp [ParseFlagsWithOpts]
    | vint n => simp [ParseFlagsWithOpts]
    | vfloat q => simp [ParseFlagsWithOpts]
    | vbool b => simp [ParseFlagsWithOpts]
    | vstruct fs => simp [ParseFlagsWithOpts]
    | vother k => simp [ParseFlagsWithOpts]
    | vnamedPrim k => simp [ParseFlagsWithOpts]
  · intro es pointee opts h
    cases pointee with
    | none => simp [ParseFlagsWithOpts]
    | some pv =>
      cases pv with
      | vstruct fs => exact absurd rfl (h fs)
      | vstr s => simp [ParseFlagsWithOpts]
      | vint n => simp [ParseFlagsWithOpts]
      | vfloat q => simp [ParseFlagsWithOpts]
      | vbool b => simp [ParseFlagsWithOpts]
      | vptr es2 p2 => simp [ParseFlagsWithOpts]
      | vother k => simp [ParseFlagsWithOpts]
      | vnamedPrim k => simp [ParseFlagsWithOpts]

/-- C8 witness: nil input, a plain string input, and a pointer to a map. -/
theorem C8_top_validation_witness :
    ParseFlagsWithOpts none ⟨"", ""⟩ = .ok (none, some .nilValue) ∧
    ParseFlagsWithOpts (some (.vstr "x")) ⟨"", ""⟩ = .ok (none, some .mustBePtr) ∧
    ParseFlagsWithOpts (some (.vptr false (some (.vother "map")))) ⟨"", ""⟩ =
      .ok (none, some .invalidStruct) :=
  ⟨C8_top_validation.1 ⟨"", ""⟩,
   C8_top_validation.2.1 (.vstr "x") ⟨"", ""⟩ (fun _ _ h => GoVal.noConfusion h),
   C8_top_validation.2.2 false (some (.vother "map")) ⟨"", ""⟩
     (fun _ h => GoVal.noConfusion (Option.some.inj h))⟩

/-- C10: a value tag that is present but empty is treated exactly as an absent
one on Int, Float and Bool leaf fields: the binding gets the type's zero
default (0, 0.0, false) and no parse error arises. -/
theorem C10_empty_value (m : FieldMeta) (opts : Options)
    (hexp : m.exported = true) (hval : m.tags.value = some "") :
    (∀ n : Int, flagsFromField m (.vint n) opts =
      .ok (some [.intFlag (resolveFlagName m opts) 0 (resolveEnvName m opts)
        (m.tags.usage.getD "")], none)) ∧
    (∀ q : Rat, flagsFromField m (.vfloat q) opts =
      .ok (some [.floatFlag (resolveFlagName m opts) 0 (resolveEnvName m opts)
        (m.tags.usage.getD "")], none)) ∧
    (∀ b : Bool, flagsFromField m (.vbool b) opts =
      .ok (some [.boolFlag (resolveFlagName m opts) false (resolveEnvName m opts)
        (m.tags.usage.getD "")], none)) := by
  refine ⟨fun n => ?_, fun q => ?_, fun b => ?_⟩ <;>
    simp [flagsFromField, hexp, hval]

/-- C10 witness: empty value tags on concrete Int, Float and Bool fields. -/
theorem C10_empty_value_witness :
    flagsFromField ⟨"N", ⟨none, none, some "", none⟩, false, true⟩ (.vint 7) ⟨"", ""⟩ =
      .ok (some [.intFlag "n" 0 "N" ""], none) ∧
    flagsFromField ⟨"N", ⟨none, none, some "", none⟩, false, true⟩ (.vfloat 7) ⟨"", ""⟩ =
      .ok (some [.floatFlag "n" 0 "N" ""], none) ∧
    flagsFromField ⟨"N", ⟨none, none, some "", none⟩, false, true⟩ (.vbool true) ⟨"", ""⟩ =
      .ok (some [.boolFlag "n" false "N" ""], none) := by
  have h := C10_empty_value ⟨"N", ⟨none, none, some "", none⟩, false, true⟩ ⟨"", ""⟩ rfl rfl
  have e1 : resolveFlagName ⟨"N", ⟨none, none, some "", none⟩, false, true⟩ ⟨"", ""⟩ = "n" := by
    decide
  have e2 : resolveEnvName ⟨"N", ⟨none, none, some "", none⟩, false, true⟩ ⟨"", ""⟩ = "N" := by
    decide
  refine ⟨?_, ?_, ?_⟩
  · have := h.1 7
    rw [e1, e2] at this
    exact this
  · have := h.2.1 7
    rw [e1, e2] at this
    exact this
  · have := h.2.2 true
    rw [e1, e2] at this
    exact this

theorem resolveFlagName_eq (m : FieldMeta) (opts : Options) :
    resolveFlagName m opts = opts.FlagPrefix ++
      (match m.tags.name with
       | some n => n
       | none => toKebabCase m.name) := by
  unfold resolveFlagName
  by_cases h : opts.FlagPrefix = ""
  · simp [h, string_empty_append]
  · simp [h]

theorem resolveEnvName_eq (m : FieldMeta) (opts : Options) :
    resolveEnvName m opts = opts.EnvPrefix ++
      (match m.tags.env with
       | some e => e
       | none =>
         toScreamingSnakeCase
           (match m.tags.name with
            | some n => n
            | none => m.name)) := by
  unfold resolveEnvName
  by_cases h : opts.EnvPrefix = ""
  · simp [h, string_empty_append]
  · simp [h]

/-- C1: a field holding a nested struct, directly or through a non-nil
pointer, makes flagsFromField recurse into ParseFlagsWithOpts on a pointer to
that struct, with a child Options whose FlagPrefix is the parent's extended by
toKebabCase(prefixSource) ++ "-" and whose EnvPrefix is the parent's extended
by toScreamingSnakeCase(prefixSource) ++ "_", where prefixSource is the name
tag if present and the field name otherwise; except that an anonymously
embedded struct passes the parent's Options down unchanged, so its leaf
fields get no added prefix. -/
theorem C1_nested_prefixes (m : FieldMeta) (v : GoVal) (opts : Options)
    (fs : List (FieldMeta × GoVal)) (hexp : m.exported = true)
    (hv : v = .vstruct fs ∨ v = .vptr true (some (.vstruct fs))) :
    flagsFromField m v opts =
      ParseFlagsWithOpts (some (.vptr true (some (.vstruct fs))))
        (if m.anonymous then opts
         else
           { EnvPrefix := opts.EnvPrefix ++
               toScreamingSnakeCase (m.tags.name.getD m.name) ++ "_",
             FlagPrefix := opts.FlagPrefix ++
               toKebabCase (m.tags.name.getD m.name) ++ "-" }) := by
  rcases hv with rfl | rfl <;>
    cases hn : m.tags.name <;> cases ha : m.anonymous <;>
      simp [flagsFromField, hexp, hn, ha]

/-- C1 witness: a field tagged name "db" holding a non-nil pointer to a
nested struct prefixes its child with "db-"/"DB_", while an anonymously
embedded struct's field comes out with no added prefix. -/
theorem C1_nested_prefixes_witness :
    flagsFromField ⟨"DB", ⟨some "db", none, none, none⟩, false, true⟩
        (.vptr true (some (.vstruct [(⟨"Host", noTags, false, true⟩, .vstr "h")])))
        ⟨"", ""⟩ =
      .ok (some [.stringFlag "db-host" "" "DB_HOST" ""], none) ∧
    flagsFromField ⟨"Base", noTags, true, true⟩
        (.vstruct [(⟨"Host", noTags, false, true⟩, .vstr "h")]) ⟨"", ""⟩ =
      .ok (some [.stringFlag "host" "" "HOST" ""], none) := by
  have e1 : toKebabCase "db" = "db" := by decide
  have e2 : toScreamingSnakeCase "db" = "DB" := by decide
  have e3 : toKebabCase "Host" = "host" := by decide
  have e4 : toScreamingSnakeCase "Host" = "HOST" := by decide
  have e5 : ("db-" ++ "host" : String) = "db-host" := by decide
  have e6 : ("DB_" ++ "HOST" : String) = "DB_HOST" := by decide
  constructor
  · have h1 := C1_nested_prefixes ⟨"DB", ⟨some "db", none, none, none⟩, false, true⟩
      (.vptr true (some (.vstruct [(⟨"Host", noTags, false, true⟩, .vstr "h")])))
      ⟨"", ""⟩ [(⟨"Host", noTags, false, true⟩, .vstr "h")] rfl (Or.inr rfl)
    rw [h1]
    simp [ParseFlagsWithOpts, parseFields, flagsFromField, resolveFlagName,
      resolveEnvName, noTags, e1, e2, e3, e4, e5, e6]
  · have h2 := C1_nested_prefixes ⟨"Base", noTags, true, true⟩
      (.vstruct [(⟨"Host", noTags, false, true⟩, .vstr "h")]) ⟨"", ""⟩
      [(⟨"Host", noTags, false, true⟩, .vstr "h")] rfl (Or.inl rfl)
    rw [h2]
    simp [ParseFlagsWithOpts, parseFields, flagsFromField, resolveFlagName,
      resolveEnvName, noTags, e3, e4]

/-- C2: for a leaf field that resolves successfully, the produced flag's name
is options.FlagPrefix prepended to the name tag if present, else to the
kebab-cased field name; its env name is options.EnvPrefix prepended to the env
tag if present, else to the SCREAMING_SNAKE_CASE of the name tag if present,
else of the field name.  The prefix prepending is unconditional here because
prepending the empty prefix is the identity. -/
theorem C2_leaf_names (m : FieldMeta) (v : GoVal) (opts : Options)
    (flags : List CliFlag) (hprim : isPrim v = true)
    (hok : flagsFromField m v opts = .ok (some flags, none)) :
    ∃ fl, flags = [fl] ∧
      fl.flagName = opts.FlagPrefix ++
        (match m.tags.name with
         | some n => n
         | none => toKebabCase m.name) ∧
      fl.envName = opts.EnvPrefix ++
        (match m.tags.env with
         | some e => e
         | none =>
           toScreamingSnakeCase
             (match m.tags.name with
              | some n => n
              | none => m.name)) := by
  cases hexp : m.exported with
  | false =>
    rw [flagsFromField_private m v opts hexp] at hok
    simp at hok
  | true =>
    cases v with
    | vstr s =>
      simp only [flagsFromField, hexp] at hok
      simp only [Bool.true_eq_false, if_false, Except.ok.injEq, Prod.mk.injEq,
        Option.some.injEq] at hok
      refine ⟨_, hok.1.symm, ?_, ?_⟩
      · exact resolveFlagName_eq m opts
      · exact resolveEnvName_eq m opts
    | vint n =>
      simp only [flagsFromField, hexp] at hok
      simp only [Bool.true_eq_false, if_false] at hok
      split at hok
      · simp only [Except.ok.injEq, Prod.mk.injEq, Option.some.injEq] at hok
        refine ⟨_, hok.1.symm, ?_, ?_⟩
        · exact resolveFlagName_eq m opts
        · exact resolveEnvName_eq m opts
      · split at hok
        · simp only [Except.ok.injEq, Prod.mk.injEq, Option.some.injEq] at hok
          refine ⟨_, hok.1.symm, ?_, ?_⟩
          · exact resolveFlagName_eq m opts
          · exact resolveEnvName_eq m opts
        · simp at hok
    | vfloat q =>
      simp only [flagsFromField, hexp] at hok
      simp only [Bool.true_eq_false, if_false] at hok
      split at hok
      · simp only [Except.ok.injEq, Prod.mk.injEq, Option.some.injEq] at hok
        refine ⟨_, hok.1.symm, ?_, ?_⟩
        · exact resolveFlagName_eq m opts
        · exact resolveEnvName_eq m opts
      · split at hok
        · simp only [Except.ok.injEq, Prod.mk.injEq, Option.some.injEq] at hok
          refine ⟨_, hok.1.symm, ?_, ?_⟩
          · exact resolveFlagName_eq m opts
          · exact resolveEnvName_eq m opts
        · simp at hok
    | vbool b =>
      simp only [flagsFromField, hexp] at hok
      simp only [Bool.true_eq_false, if_false] at hok
      split at hok
      · simp only [Except.ok.injEq, Prod.mk.injEq, Option.some.injEq] at hok
        refine ⟨_, hok.1.symm, ?_, ?_⟩
        · exact resolveFlagName_eq m opts
        · exact resolveEnvName_eq m opts
      · split at hok
        · simp only [Except.ok.injEq, Prod.mk.injEq, Option.some.injEq] at hok
          refine ⟨_, hok.1.symm, ?_, ?_⟩
          · exact resolveFlagName_eq m opts
          · exact resolveEnvName_eq m opts
        · simp at hok
    | vstruct fs => simp [isPrim] at hprim
    | vptr es p => simp [isPrim] at hprim
    | vother k => simp [isPrim] at hprim
    | vnamedPrim k => simp [isPrim] at hprim

/-- C2 witness: the untagged field HostURL under envPrefix "MYAPP_" resolves
to env name "MYAPP_HOST_URL" while the flag name "host-url" is unaffected. -/
theorem C2_leaf_names_witness :
    flagsFromField ⟨"HostURL", noTags, false, true⟩ (.vstr "") ⟨"MYAPP_", ""⟩ =
      .ok (some [.stringFlag "host-url" "" "MYAPP_HOST_URL" ""], none) ∧
    ∃ fl : CliFlag, [CliFlag.stringFlag "host-url" "" "MYAPP_HOST_URL" ""] = [fl] ∧
      fl.flagName = "" ++ toKebabCase "HostURL" ∧
      fl.envName = "MYAPP_" ++ toScreamingSnakeCase "HostURL" := by
  have e1 : toKebabCase "HostURL" = "host-url" := by decide
  have e2 : toScreamingSnakeCase "HostURL" = "HOST_URL" := by decide
  have e3 : ("MYAPP_" ++ "HOST_URL" : String) = "MYAPP_HOST_URL" := by decide
  have hok : flagsFromField ⟨"HostURL", noTags, false, true⟩ (.vstr "") ⟨"MYAPP_", ""⟩ =
      .ok (some [.stringFlag "host-url" "" "MYAPP_HOST_URL" ""], none) := by
    simp [flagsFromField, resolveFlagName, resolveEnvName, noTags, e1, e2, e3]
  exact ⟨hok, C2_leaf_names ⟨"HostURL", noTags, false, true⟩ (.vstr "") ⟨"MYAPP_", ""⟩
    _ rfl hok⟩

theorem parseFields_err {fs : List (FieldMeta × GoVal)} {opts : Options}
    {flags : List CliFlag} {e : GoErr}
    (h : parseFields fs opts = .ok (flags, some e)) :
    ∃ i, ∃ hi : i < fs.length,
      (∃ nf, flagsFromField (fs.get ⟨i, hi⟩).1 (fs.get ⟨i, hi⟩).2 opts =
        .ok (nf, some e)) ∧
      ∀ j (hj : j < i), ∃ nf,
        flagsFromField (fs.get ⟨j, Nat.lt_trans hj hi⟩).1
          (fs.get ⟨j, Nat.lt_trans hj hi⟩).2 opts = .ok (nf, none) := by
  induction fs generalizing flags e with
  | nil => simp [parseFields] at h
  | cons fv rest ih =>
    obtain ⟨m, v⟩ := fv
    simp only [parseFields] at h
    cases hf : flagsFromField m v opts with
    | error pmsg => rw [hf] at h; simp at h
    | ok pr =>
      obtain ⟨nf, fe⟩ := pr
      rw [hf] at h
      cases hr : parseFields rest opts with
      | error pmsg => rw [hr] at h; simp at h
      | ok pr2 =>
        obtain ⟨rf, re⟩ := pr2
        rw [hr] at h
        simp only [Except.ok.injEq, Prod.mk.injEq] at h
        obtain ⟨h1, h2⟩ := h
        cases fe with
        | some e' =>
          have he : e' = e := Option.some.inj h2
          subst he
          refine ⟨0, Nat.succ_pos rest.length, ⟨nf, hf⟩, ?_⟩
          intro j hj
          exact absurd hj (Nat.not_lt_zero j)
        | none =>
          have h2' : re = some e := h2
          subst h2'
          obtain ⟨i, hi, hfi, hprev⟩ := ih hr
          refine ⟨i + 1, Nat.succ_lt_succ hi, hfi, ?_⟩
          intro j hj
          cases j with
          | zero => exact ⟨nf, hf⟩
          | succ j' => exact hprev j' (Nat.lt_of_succ_lt_succ hj)

/-- C3: resolve never returns a binding list alongside an error, and when a
record input has a failing field the returned error is the error of the first
failing field in declaration order, every earlier field having resolved
without error. -/
theorem C3_fail_fast :
    (∀ (s : Option GoVal) (opts : Options) (fl : Option (List CliFlag)) (e : GoErr),
      ParseFlagsWithOpts s opts = .ok (fl, some e) → fl = none) ∧
    (∀ (es : Bool) (fs : List (FieldMeta × GoVal)) (opts : Options)
       (fl : Option (List CliFlag)) (e : GoErr),
      ParseFlagsWithOpts (some (.vptr es (some (.vstruct fs)))) opts =
        .ok (fl, some e) →
      ∃ i, ∃ hi : i < fs.length,
        (∃ nf, flagsFromField (fs.get ⟨i, hi⟩).1 (fs.get ⟨i, hi⟩).2 opts =
          .ok (nf, some e)) ∧
        ∀ j (hj : j < i), ∃ nf,
          flagsFromField (fs.get ⟨j, Nat.lt_trans hj hi⟩).1
            (fs.get ⟨j, Nat.lt_trans hj hi⟩).2 opts = .ok (nf, none)) := by
  constructor
  · intro s opts fl e h
    cases s with
    | none => simp [ParseFlagsWithOpts] at h; exact h.1.symm
    | some v =>
      cases v with
      | vptr es p =>
        cases p with
        | none => simp [ParseFlagsWithOpts] at h; exact h.1.symm
        | some pv =>
          cases pv with
          | vstruct fs =>
            simp only [ParseFlagsWithOpts] at h
            cases hpf : parseFields fs opts with
            | error pmsg => rw [hpf] at h; simp at h
            | ok pr =>
              obtain ⟨f2, e2⟩ := pr
              rw [hpf] at h
              cases e2 with
              | none => simp at h
              | some e2' => simp at h; exact h.1.symm
          | vstr s2 => simp [ParseFlagsWithOpts] at h; exact h.1.symm
          | vint n => simp [ParseFlagsWithOpts] at h; exact h.1.symm
          | vfloat q => simp [ParseFlagsWithOpts] at h; exact h.1.symm
          | vbool b => simp [ParseFlagsWithOpts] at h; exact h.1.symm
          | vptr es2 p2 => simp [ParseFlagsWithOpts] at h; exact h.1.symm
          | vother k => simp [ParseFlagsWithOpts] at h; exact h.1.symm
          | vnamedPrim k => simp [ParseFlagsWithOpts] at h; exact h.1.symm
      | vstr s2 => simp [ParseFlagsWithOpts] at h; exact h.1.symm
      | vint n => simp [ParseFlagsWithOpts] at h; exact h.1.symm
      | vfloat q => simp [ParseFlagsWithOpts] at h; exact h.1.symm
      | vbool b => simp [ParseFlagsWithOpts] at h; exact h.1.symm
      | vstruct fs => simp [ParseFlagsWithOpts] at h; exact h.1.symm
      | vother k => simp [ParseFlagsWithOpts] at h; exact h.1.symm
      | vnamedPrim k => simp [ParseFlagsWithOpts] at h; exact h.1.symm
  · intro es fs opts fl e h
    simp only [ParseFlagsWithOpts] at h
    cases hpf : parseFields fs opts with
    | error pmsg => rw [hpf] at h; simp at h
    | ok pr =>
      obtain ⟨f2, e2⟩ := pr
      rw [hpf] at h
      cases e2 with
      | none => simp at h
      | some e2' =>
        simp only [Except.ok.injEq, Prod.mk.injEq, Option.some.injEq] at h
        obtain ⟨-, he⟩ := h
        subst he
        exact parseFields_err hpf

/-- Sample record for the C3 witness: a resolving string field followed by a
private field, whose error is the one returned, and no binding list. -/
def sampleC3 : List (FieldMeta × GoVal) :=
  [(⟨"A", noTags, false, true⟩, .vstr "x"), (⟨"b", noTags, false, false⟩, .vint 0)]

/-- C3 witness: the two-field record resolves to no list and the private
field's error, which the theorem locates as the first failing field. -/
theorem C3_fail_fast_witness :
    (ParseFlagsWithOpts (some (.vptr true (some (.vstruct sampleC3)))) ⟨"", ""⟩ =
      .ok (none, some (.privateField "b"))) ∧
    (∃ i, ∃ hi : i < sampleC3.length,
      (∃ nf, flagsFromField (sampleC3.get ⟨i, hi⟩).1 (sampleC3.get ⟨i, hi⟩).2 ⟨"", ""⟩ =
        .ok (nf, some (.privateField "b"))) ∧
      ∀ j (hj : j < i), ∃ nf,
        flagsFromField (sampleC3.get ⟨j, Nat.lt_trans hj hi⟩).1
          (sampleC3.get ⟨j, Nat.lt_trans hj hi⟩).2 ⟨"", ""⟩ = .ok (nf, none)) := by
  have e1 : toKebabCase "A" = "a" := by decide
  have e2 : toScreamingSnakeCase "A" = "A" := by decide
  have hrun : ParseFlagsWithOpts (some (.vptr true (some (.vstruct sampleC3)))) ⟨"", ""⟩ =
      .ok (none, some (.privateField "b")) := by
    simp [ParseFlagsWithOpts, parseFields, flagsFromField, sampleC3,
      resolveFlagName, resolveEnvName, noTags, e1, e2]
  exact ⟨hrun, C3_fail_fast.2 true sampleC3 ⟨"", ""⟩ none (.privateField "b") hrun⟩

/-- C5 counterexample: on an Int field the value tag "" is present and its
literal cannot be parsed as an integer (strconv.Atoi rejects the empty
string), so the claim requires a ValueParseError; the code instead succeeds
with default 0. -/
theorem C5_default_cex :
    goAtoi "" = none ∧
    flagsFromField ⟨"I", ⟨none, none, some "", none⟩, false, true⟩ (.vint 0) ⟨"", ""⟩ =
      .ok (some [.intFlag "i" 0 "I" ""], none) := by
  constructor
  · decide
  · have e1 : toKebabCase "I" = "i" := by decide
    have e2 : toScreamingSnakeCase "I" = "I" := by decide
    simp [flagsFromField, resolveFlagName, resolveEnvName, e1, e2]

/-- C5 (amended): for every Int, Float or Bool leaf field, if the value tag is
absent or the empty string the binding's default is the type's zero (0, 0.0,
false); if it is present and nonempty the literal is parsed as the field's
type and the typed result becomes the default, and a nonempty literal that
cannot be parsed makes resolve fail with the wrapped strconv parse error;
bindings for a record of tagged leaf fields are produced one per field, in
declaration order, with name, env and usage copied from the tags. -/
theorem C5_defaults_amended :
    (∀ (m : FieldMeta) (opts : Options) (n : Int), m.exported = true →
      (m.tags.value = none ∨ m.tags.value = some "") →
      flagsFromField m (.vint n) opts =
        .ok (some [.intFlag (resolveFlagName m opts) 0 (resolveEnvName m opts)
          (m.tags.usage.getD "")], none)) ∧
    (∀ (m : FieldMeta) (opts : Options) (q : Rat), m.exported = true →
      (m.tags.value = none ∨ m.tags.value = some "") →
      flagsFromField m (.vfloat q) opts =
        .ok (some [.floatFlag (resolveFlagName m opts) 0 (resolveEnvName m opts)
          (m.tags.usage.getD "")], none)) ∧
    (∀ (m : FieldMeta) (opts : Options) (b : Bool), m.exported = true →
      (m.tags.value = none ∨ m.tags.value = some "") →
      flagsFromField m (.vbool b) opts =
        .ok (some [.boolFlag (resolveFlagName m opts) false (resolveEnvName m opts)
          (m.tags.usage.getD "")], none)) ∧
    (∀ (m : FieldMeta) (opts : Options) (n : Int) (lit : String), m.exported = true →
      m.tags.value = some lit → lit ≠ "" →
      ((∀ i, goAtoi lit = some i →
        flagsFromField m (.vint n) opts =
          .ok (some [.intFlag (resolveFlagName m opts) i (resolveEnvName m opts)
            (m.tags.usage.getD "")], none)) ∧
       (goAtoi lit = none →
        flagsFromField m (.vint n) opts = .ok (none, some (.parseFail "Atoi" lit))))) ∧
    (∀ (m : FieldMeta) (opts : Options) (q : Rat) (lit : String), m.exported = true →
      m.tags.value = some lit → lit ≠ "" →
      ((∀ x, goParseFloat lit = some x →
        flagsFromField m (.vfloat q) opts =
          .ok (some [.floatFlag (resolveFlagName m opts) x (resolveEnvName m opts)
            (m.tags.usage.getD "")], none)) ∧
       (goParseFloat lit = none →
        flagsFromField m (.vfloat q) opts =
          .ok (none, some (.parseFail "ParseFloat" lit))))) ∧
    (∀ (m : FieldMeta) (opts : Options) (b : Bool) (lit : String), m.exported = true →
      m.tags.value = some lit → lit ≠ "" →
      ((∀ x, goParseBool lit = some x →
        flagsFromField m (.vbool b) opts =
          .ok (some [.boolFlag (resolveFlagName m opts) x (resolveEnvName m opts)
            (m.tags.usage.getD "")], none)) ∧
       (goParseBool lit = none →
        flagsFromField m (.vbool b) opts =
          .ok (none, some (.parseFail "ParseBool" lit))))) ∧
    (ParseFlagsWithOpts (some (.vptr true (some (.vstruct
        [(⟨"S", ⟨some "s", some "S_ENV", some "sv", some "su"⟩, false, true⟩, .vstr "old"),
         (⟨"I", ⟨some "i", some "I_ENV", some "1", some "iu"⟩, false, true⟩, .vint 9),
         (⟨"B", ⟨some "b", some "B_ENV", some "true", some "bu"⟩, false, true⟩,
           .vbool false)])))) ⟨"", ""⟩ =
      .ok (some [.stringFlag "s" "sv" "S_ENV" "su", .intFlag "i" 1 "I_ENV" "iu",
        .boolFlag "b" true "B_ENV" "bu"], none)) := by
  refine ⟨?_, ?_, ?_, ?_, ?_, ?_, ?_⟩
  · intro m opts n hexp hval
    rcases hval with h | h <;> simp [flagsFromField, hexp, h]
  · intro m opts q hexp hval
    rcases hval with h | h <;> simp [flagsFromField, hexp, h]
  · intro m opts b hexp hval
    rcases hval with h | h <;> simp [flagsFromField, hexp, h]
  · intro m opts n lit hexp hval hne
    constructor
    · intro i hp
      simp [flagsFromField, hexp, hval, hne, hp]
    · intro hp
      simp [flagsFromField, hexp, hval, hne, hp]
  · intro m opts q lit hexp hval hne
    constructor
    · intro x hp
      simp [flagsFromField, hexp, hval, hne, hp]
    · intro hp
      simp [flagsFromField, hexp, hval, hne, hp]
  · intro m opts b lit hexp hval hne
    have hne' : lit.length ≠ 0 := fun h0 => hne (by
      cases lit with
      | mk data =>
        cases data with
        | nil => rfl
        | cons c cs => simp [String.length] at h0)
    constructor
    · intro x hp
      simp [flagsFromField, hexp, hval, hne', hp]
    · intro hp
      simp [flagsFromField, hexp, hval, hne', hp]
  · have h1 : goAtoi "1" = some 1 := by decide
    have h2 : goParseBool "true" = some true := by decide
    have h3 : ¬(("true" : String).length = 0) := by decide
    simp [ParseFlagsWithOpts, parseFields, flagsFromField, resolveFlagName,
      resolveEnvName, h1, h2, h3]

/-- C5 witness: the amended theorem applied at a tagged concrete Int field
with a parseable literal, at one whose literal cannot be parsed, and at an
untagged Float field. -/
theorem C5_defaults_amended_witness :
    flagsFromField ⟨"Port", ⟨none, none, some "3001", none⟩, false, true⟩ (.vint 0)
        ⟨"", ""⟩ =
      .ok (some [.intFlag (resolveFlagName ⟨"Port", ⟨none, none, some "3001", none⟩,
        false, true⟩ ⟨"", ""⟩) 3001 (resolveEnvName ⟨"Port", ⟨none, none, some "3001",
        none⟩, false, true⟩ ⟨"", ""⟩) ""], none) ∧
    flagsFromField ⟨"Port", ⟨none, none, some "x9", none⟩, false, true⟩ (.vint 0)
        ⟨"", ""⟩ =
      .ok (none, some (.parseFail "Atoi" "x9")) ∧
    flagsFromField ⟨"Ratio", noTags, false, true⟩ (.vfloat 5) ⟨"", ""⟩ =
      .ok (some [.floatFlag (resolveFlagName ⟨"Ratio", noTags, false, true⟩ ⟨"", ""⟩) 0
        (resolveEnvName ⟨"Ratio", noTags, false, true⟩ ⟨"", ""⟩) ""], none) := by
  refine ⟨?_, ?_, ?_⟩
  · exact (C5_defaults_amended.2.2.2.1 ⟨"Port", ⟨none, none, some "3001", none⟩,
      false, true⟩ ⟨"", ""⟩ 0 "3001" rfl rfl (by decide)).1 3001 (by decide)
  · exact (C5_defaults_amended.2.2.2.1 ⟨"Port", ⟨none, none, some "x9", none⟩,
      false, true⟩ ⟨"", ""⟩ 0 "x9" rfl rfl (by decide)).2 (by decide)
  · exact C5_defaults_amended.2.1 ⟨"Ratio", noTags, false, true⟩ ⟨"", ""⟩ 5 rfl
      (Or.inl rfl)

/-- The kind of an error: which sentinel (errors.Is target) it wraps, the
seven branchable kinds numbered 0-6, and the sentinel-less address-assertion
error as 7. -/
def errKind : GoErr → Nat
  | .nilValue => 0
  | .mustBePtr => 1
  | .invalidStruct => 2
  | .privateField _ => 3
  | .nilStructPtr _ => 4
  | .notSupported _ => 5
  | .parseFail _ _ => 6
  | .badAddr _ => 7

theorem fieldsSz_ge_one (fs : List (FieldMeta × GoVal)) : 1 ≤ fieldsSz fs := by
  cases fs with
  | nil => simp [fieldsSz]
  | cons fv rest =>
    obtain ⟨m, v⟩ := fv
    simp only [fieldsSz]
    omega

mutual

/-- Whether a value and everything reachable inside it is free of
named-primitive-typed values, so that every type assertion taken during its
traversal succeeds. -/
def GoVal.noNamed : GoVal → Bool
  | .vnamedPrim _ => false
  | .vptr _ (some p) => p.noNamed
  | .vstruct fs => fieldsNoNamed fs
  | _ => true

/-- noNamed over a struct's field list. -/
def fieldsNoNamed : List (FieldMeta × GoVal) → Bool
  | [] => true
  | (_, v) :: fs => v.noNamed && fieldsNoNamed fs

end

/-- noNamed on the resolver's optional argument. -/
def optNoNamed : Option GoVal → Bool
  | none => true
  | some v => v.noNamed

/-- A field value that lands in a primitive switch arm with a failing type
assertion: a named-primitive value, directly or behind one pointer. -/
def isNamedPrimVal : GoVal → Bool
  | .vnamedPrim _ => true
  | .vptr _ (some (.vnamedPrim _)) => true
  | _ => false

theorem flagsFromField_namedPrim (m : FieldMeta) (v : GoVal) (opts : Options)
    (hnp : isNamedPrimVal v = true) (hexp : m.exported = true) :
    flagsFromField m v opts = .ok (none, some (.badAddr m.name)) := by
  cases v with
  | vnamedPrim k => simp [flagsFromField, hexp]
  | vptr es p =>
    cases p with
    | none => simp [isNamedPrimVal] at hnp
    | some pv =>
      cases pv with
      | vnamedPrim k => simp [flagsFromField, hexp]
      | vstr s => simp [isNamedPrimVal] at hnp
      | vint n => simp [isNamedPrimVal] at hnp
      | vfloat q => simp [isNamedPrimVal] at hnp
      | vbool b => simp [isNamedPrimVal] at hnp
      | vstruct fs => simp [isNamedPrimVal] at hnp
      | vptr es2 p2 => simp [isNamedPrimVal] at hnp
      | vother k => simp [isNamedPrimVal] at hnp
  | vstr s => simp [isNamedPrimVal] at hnp
  | vint n => simp [isNamedPrimVal] at hnp
  | vfloat q => simp [isNamedPrimVal] at hnp
  | vbool b => simp [isNamedPrimVal] at hnp
  | vstruct fs => simp [isNamedPrimVal] at hnp
  | vother k => simp [isNamedPrimVal] at hnp

theorem resolverErrKinds : ∀ N : Nat,
    (∀ (s : Option GoVal) (opts : Options) (fl : Option (List CliFlag)) (e : GoErr),
       optSz s ≤ N → optNoNamed s = true →
       ParseFlagsWithOpts s opts = .ok (fl, some e) → errKind e ≤ 6) ∧
    (∀ (fs : List (FieldMeta × GoVal)) (opts : Options) (fl : List CliFlag) (e : GoErr),
       fieldsSz fs ≤ N → fieldsNoNamed fs = true →
       parseFields fs opts = .ok (fl, some e) → errKind e ≤ 6) ∧
    (∀ (m : FieldMeta) (v : GoVal) (opts : Options) (fl : Option (List CliFlag))
       (e : GoErr),
       GoVal.sz v + 2 ≤ N → GoVal.noNamed v = true →
       flagsFromField m v opts = .ok (fl, some e) → errKind e ≤ 6) := by
  intro N
  induction N using Nat.strong_induction_on with
  | _ N ih =>
  refine ⟨?_, ?_, ?_⟩
  · intro s opts fl e hsz hnn h
    cases s with
    | none =>
      simp [ParseFlagsWithOpts] at h
      rcases h with ⟨-, rfl⟩
      decide
    | some v =>
      cases v with
      | vptr es p =>
        cases p with
        | none =>
          simp [ParseFlagsWithOpts] at h
          rcases h with ⟨-, rfl⟩
          decide
        | some pv =>
          cases pv with
          | vstruct fs =>
            simp only [ParseFlagsWithOpts] at h
            cases hpf : parseFields fs opts with
            | error pm => rw [hpf] at h; simp at h
            | ok pr =>
              obtain ⟨f2, e2⟩ := pr
              rw [hpf] at h
              cases e2 with
              | none => simp at h
              | some e2' =>
                simp only [Except.ok.injEq, Prod.mk.injEq, Option.some.injEq] at h
                obtain ⟨-, rfl⟩ := h
                have hlt : fieldsSz fs < N := by
                  simp only [optSz, GoVal.sz] at hsz
                  omega
                have hnn2 : fieldsNoNamed fs = true := by
                  simp only [optNoNamed, GoVal.noNamed] at hnn
                  exact hnn
                exact (ih (fieldsSz fs) hlt).2.1 fs opts f2 e2' le_rfl hnn2 hpf
          | vstr s2 => simp [ParseFlagsWithOpts] at h; rcases h with ⟨-, rfl⟩; decide
          | vint n => simp [ParseFlagsWithOpts] at h; rcases h with ⟨-, rfl⟩; decide
          | vfloat q => simp [ParseFlagsWithOpts] at h; rcases h with ⟨-, rfl⟩; decide
          | vbool b => simp [ParseFlagsWithOpts] at h; rcases h with ⟨-, rfl⟩; decide
          | vptr es2 p2 => simp [ParseFlagsWithOpts] at h; rcases h with ⟨-, rfl⟩; decide
          | vother k => simp [ParseFlagsWithOpts] at h; rcases h with ⟨-, rfl⟩; decide
          | vnamedPrim k => simp [ParseFlagsWithOpts] at h; rcases h with ⟨-, rfl⟩; decide
      | vstr s2 => simp [ParseFlagsWithOpts] at h; rcases h with ⟨-, rfl⟩; decide
      | vint n => simp [ParseFlagsWithOpts] at h; rcases h with ⟨-, rfl⟩; decide
      | vfloat q => simp [ParseFlagsWithOpts] at h; rcases h with ⟨-, rfl⟩; decide
      | vbool b => simp [ParseFlagsWithOpts] at h; rcases h with ⟨-, rfl⟩; decide
      | vstruct fs => simp [ParseFlagsWithOpts] at h; rcases h with ⟨-, rfl⟩; decide
      | vother k => simp [ParseFlagsWithOpts] at h; rcases h with ⟨-, rfl⟩; decide
      | vnamedPrim k => simp [ParseFlagsWithOpts] at h; rcases h with ⟨-, rfl⟩; decide
  · intro fs opts fl e hsz hnn h
    cases fs with
    | nil => simp [parseFields] at h
    | cons fv rest =>
      obtain ⟨m, v⟩ := fv
      simp only [fieldsNoNamed, Bool.and_eq_true] at hnn
      obtain ⟨hnn1, hnn2⟩ := hnn
      simp only [parseFields] at h
      cases hf : flagsFromField m v opts with
      | error pm => rw [hf] at h; simp at h
      | ok pr =>
        obtain ⟨nf, fe⟩ := pr
        rw [hf] at h
        cases hr : parseFields rest opts with
        | error pm => rw [hr] at h; simp at h
        | ok pr2 =>
          obtain ⟨rf, re⟩ := pr2
          rw [hr] at h
          simp only [Except.ok.injEq, Prod.mk.injEq] at h
          obtain ⟨-, h2⟩ := h
          cases fe with
          | some e2 =>
            have he : e2 = e := Option.some.inj h2
            subst he
            have hge := fieldsSz_ge_one rest
            have hlt : GoVal.sz v + 2 < N := by
              simp only [fieldsSz] at hsz
              omega
            exact (ih (GoVal.sz v + 2) hlt).2.2 m v opts nf e2 le_rfl hnn1 hf
          | none =>
            have h2a : re = some e := h2
            subst h2a
            have hlt : fieldsSz rest < N := by
              simp only [fieldsSz] at hsz
              omega
            exact (ih (fieldsSz rest) hlt).2.1 rest opts rf e le_rfl hnn2 hr
  · intro m v opts fl e hsz hnn h
    cases hexp : m.exported with
    | false =>
      rw [flagsFromField_private m v opts hexp] at h
      simp only [Except.ok.injEq, Prod.mk.injEq, Option.some.injEq] at h
      obtain ⟨-, rfl⟩ := h
      simp only [errKind]
      omega
    | true =>
      simp only [flagsFromField, hexp] at h
      simp only [Bool.true_eq_false, if_false] at h
      split at h
      · simp only [Except.ok.injEq, Prod.mk.injEq, Option.some.injEq] at h
        obtain ⟨-, rfl⟩ := h
        simp only [errKind]
        omega
      · simp at h
      · refine (ih _ (by simp only [optSz, GoVal.sz] at hsz ⊢; omega)).1 _ _ fl e
          le_rfl ?_ h
        simp only [optNoNamed, GoVal.noNamed] at hnn ⊢
        exact hnn
      · refine (ih _ (by simp only [optSz, GoVal.sz] at hsz ⊢; omega)).1 _ _ fl e
          le_rfl ?_ h
        simp only [optNoNamed, GoVal.noNamed] at hnn ⊢
        exact hnn
      · simp at h
      · simp at h
      · split at h
        · simp at h
        · split at h
          · simp at h
          · simp only [Except.ok.injEq, Prod.mk.injEq, Option.some.injEq] at h
            obtain ⟨-, rfl⟩ := h
            simp only [errKind]
            omega
      · split at h
        · simp at h
        · split at h
          · simp at h
          · simp only [Except.ok.injEq, Prod.mk.injEq, Option.some.injEq] at h
            obtain ⟨-, rfl⟩ := h
            simp only [errKind]
            omega
      · split at h
        · simp at h
        · split at h
          · simp at h
          · simp only [Except.ok.injEq, Prod.mk.injEq, Option.some.injEq] at h
            obtain ⟨-, rfl⟩ := h
            simp only [errKind]
            omega
      · split at h
        · simp at h
        · split at h
          · simp at h
          · simp only [Except.ok.injEq, Prod.mk.injEq, Option.some.injEq] at h
            obtain ⟨-, rfl⟩ := h
            simp only [errKind]
            omega
      · split at h
        · simp at h
        · split at h
          · simp at h
          · simp only [Except.ok.injEq, Prod.mk.injEq, Option.some.injEq] at h
            obtain ⟨-, rfl⟩ := h
            simp only [errKind]
            omega
      · split at h
        · simp at h
        · split at h
          · simp at h
          · simp only [Except.ok.injEq, Prod.mk.injEq, Option.some.injEq] at h
            obtain ⟨-, rfl⟩ := h
            simp only [errKind]
            omega
      · simp only [GoVal.noNamed] at hnn
        exact absurd hnn (by decide)
      · simp only [GoVal.noNamed] at hnn
        exact absurd hnn (by decide)
      · simp only [Except.ok.injEq, Prod.mk.injEq, Option.some.injEq] at h
        obtain ⟨-, rfl⟩ := h
        simp only [errKind]
        omega
      · simp only [Except.ok.injEq, Prod.mk.injEq, Option.some.injEq] at h
        obtain ⟨-, rfl⟩ := h
        simp only [errKind]
        omega
      · simp only [Except.ok.injEq, Prod.mk.injEq, Option.some.injEq] at h
        obtain ⟨-, rfl⟩ := h
        simp only [errKind]
        omega

/-- C9 counterexample: an exported field of a named primitive type (kind int
but dynamic type not the built-in one, as with a Go `type MyInt int`) makes
resolve return the sentinel-less address-assertion error, whose kind is none
of the seven branchable ones, so not every returned error is distinguishable
by kind. -/
theorem C9_error_kinds_cex :
    ParseFlagsWithOpts (some (.vptr true (some (.vstruct
      [(⟨"M", noTags, false, true⟩, .vnamedPrim "int")])))) ⟨"", ""⟩ =
      .ok (none, some (.badAddr "M")) ∧
    errKind (.badAddr "M") ∉ [errKind .nilValue, errKind .mustBePtr,
      errKind .invalidStruct, errKind (.privateField "M"),
      errKind (.nilStructPtr "M"), errKind (.notSupported "int"),
      errKind (.parseFail "Atoi" "")] := by
  constructor
  · have e1 : toKebabCase "M" = "m" := by decide
    have e2 : toScreamingSnakeCase "M" = "M" := by decide
    simp [ParseFlagsWithOpts, parseFields, flagsFromField, resolveFlagName,
      resolveEnvName, noTags, e1, e2]
  · decide

/-- C9 (amended): the seven error kinds are pairwise distinguishable whatever
data each carries, and every error the resolver returns is of one of those
seven kinds, so a caller can branch on its category, the value-parse error
included — except for a field whose dynamic type is a named primitive type:
the failing iface.(*T) assertion makes resolve return the sentinel-less
address error naming that field, and on inputs free of named-primitive values
that error never occurs. -/
theorem C9_error_kinds_amended :
    (∀ f g k r x : String,
      [errKind .nilValue, errKind .mustBePtr, errKind .invalidStruct,
       errKind (.privateField f), errKind (.nilStructPtr g),
       errKind (.notSupported k), errKind (.parseFail r x)].Pairwise (· ≠ ·)) ∧
    (∀ (m : FieldMeta) (v : GoVal) (opts : Options), isNamedPrimVal v = true →
      m.exported = true →
      flagsFromField m v opts = .ok (none, some (.badAddr m.name))) ∧
    (∀ (s : Option GoVal) (opts : Options) (fl : Option (List CliFlag)) (e : GoErr),
      optNoNamed s = true → ParseFlagsWithOpts s opts = .ok (fl, some e) →
      errKind e ≤ 6) := by
  refine ⟨?_, flagsFromField_namedPrim, ?_⟩
  · intro f g k r x
    simp only [errKind]
    decide
  · intro s opts fl e hnn h
    exact (resolverErrKinds (optSz s)).1 s opts fl e le_rfl hnn h

/-- C9 witness: the amended theorem applied concretely: the kinds are pairwise
distinct; a named-int field yields the sentinel-less address error; and a
record with a map field, free of named-primitive values, yields an error of
the UnsupportedTypeError kind, within the seven branchable ones. -/
theorem C9_error_kinds_amended_witness :
    ([errKind .nilValue, errKind .mustBePtr, errKind .invalidStruct,
      errKind (.privateField "f"), errKind (.nilStructPtr "g"),
      errKind (.notSupported "map"), errKind (.parseFail "Atoi" "x")].Pairwise
        (· ≠ ·)) ∧
    flagsFromField ⟨"N", noTags, false, true⟩ (.vnamedPrim "int") ⟨"", ""⟩ =
      .ok (none, some (.badAddr "N")) ∧
    ParseFlagsWithOpts (some (.vptr true (some (.vstruct
      [(⟨"M", noTags, false, true⟩, .vother "map")])))) ⟨"", ""⟩ =
      .ok (none, some (.notSupported "map")) ∧
    errKind (.notSupported "map") ≤ 6 := by
  have hrun : ParseFlagsWithOpts (some (.vptr true (some (.vstruct
      [(⟨"M", noTags, false, true⟩, .vother "map")])))) ⟨"", ""⟩ =
      .ok (none, some (.notSupported "map")) := by
    have e1 : toKebabCase "M" = "m" := by decide
    have e2 : toScreamingSnakeCase "M" = "M" := by decide
    simp [ParseFlagsWithOpts, parseFields, flagsFromField, resolveFlagName,
      resolveEnvName, noTags, e1, e2]
  refine ⟨C9_error_kinds_amended.1 "f" "g" "map" "Atoi" "x",
    C9_error_kinds_amended.2.1 ⟨"N", noTags, false, true⟩ (.vnamedPrim "int")
      ⟨"", ""⟩ rfl rfl, hrun,
    C9_error_kinds_amended.2.2 _ ⟨"", ""⟩ _ _ ?_ hrun⟩
  simp [optNoNamed, GoVal.noNamed, fieldsNoNamed]
